import Mathlib

/-!
Verification of the server-to-client stream decoder of mapperproxy-mume
(`mapper/main.py`, class `Server`, method `run`).  The per-byte state
machine of the decoder loop (lines 161-324 of `main.py`) is embedded as
`processByte` over `DecoderState`.  Bytes are modelled as `Nat`; byte
strings as `List Nat`.  Events put on the mapper queue, MPI worker
threads spawned, and bytes sent back to the server via `sendall` are
recorded in the state so that theorems can speak about them.
-/

/-- Output formats selectable at session start (`outputFormat`). -/
inductive OutputFormat
  | normal
  | tintin
  | raw
deriving DecidableEq, Repr

/-- Events the decoder puts on the mapper queue (`self._mapper.queue.put((MUD_DATA, ...))`). -/
inductive MudEvent
  | line (b : List Nat)
  | movement (b : List Nat)
  | name (b : List Nat)
  | description (b : List Nat)
  | exits (b : List Nat)
  | prompt (b : List Nat)
  | dynamic (b : List Nat)
  | iacGa
deriving DecidableEq, Repr

/-- ASCII bytes of a string literal (used to transcribe the byte literals of the source). -/
def s2b (s : String) : List Nat := s.data.map Char.toNat

def ordIAC : Nat := 255
def ordGA : Nat := 249
def ordSB : Nat := 250
def ordSE : Nat := 240
def ordLF : Nat := 10
def ordCHARSET : Nat := 42

/-- `negotiationBytes`: DONT (254), DO (253), WONT (252), WILL (251). -/
def isNegotiation (b : Nat) : Prop := b = 254 ∨ b = 253 ∨ b = 252 ∨ b = 251

instance (b : Nat) : Decidable (isNegotiation b) := by unfold isNegotiation; infer_instance

/-- `ignoreBytes`: `theNULL` (0) and 0x11. -/
def isIgnored (b : Nat) : Prop := b = 0 ∨ b = 17

instance (b : Nat) : Decidable (isIgnored b) := by unfold isIgnored; infer_instance

/-- Python `del l[-n:]`. -/
def dropLastN (n : Nat) (l : List Nat) : List Nat := l.take (l.length - n)

/-- Python `l[-n:]`. -/
def lastN (n : Nat) (l : List Nat) : List Nat := l.drop (l.length - n)

/-- Python `l.endswith(b"\n")`. -/
def endsWithLF (l : List Nat) : Bool := l.getLast? == some 10

/-- Python `bytes.isdigit`: non-empty and every byte an ASCII decimal digit. -/
def isDigits (l : List Nat) : Bool := !l.isEmpty && l.all (fun d => 48 ≤ d && d ≤ 57)

/-- Python `int` on a byte string of ASCII decimal digits. -/
def digitsToNat (l : List Nat) : Nat := l.foldl (fun n d => n * 10 + (d - 48)) 0

/-- Validity test of an MPI header line:
`mpiBuffer[0:1] in (b"E", b"V") and mpiBuffer[1:].isdigit()`. -/
def headerValid (l : List Nat) : Bool :=
  (l.take 1 == [69] || l.take 1 == [86]) && isDigits (l.drop 1)

/-- Python `bytes.splitlines` on the byte strings occurring here:
split on `\r\n`, `\r` or `\n`, with no trailing empty chunk for a
terminal line break. -/
def splitlines : List Nat → List (List Nat)
  | [] => []
  | 13 :: 10 :: rest => [] :: splitlines rest
  | 13 :: rest => [] :: splitlines rest
  | 10 :: rest => [] :: splitlines rest
  | b :: rest =>
    match splitlines rest with
    | [] => [[b]]
    | l :: ls => (b :: l) :: ls

/-- ASCII whitespace bytes recognised by Python `bytes.strip`. -/
def isSpaceByte (b : Nat) : Bool :=
  b == 9 || b == 10 || b == 11 || b == 12 || b == 13 || b == 32

/-- The `Line` events emitted when a line buffer is flushed on a newline:
`for line in bytes(lineBuffer).splitlines(): if line.strip(): put ("line", line)`. -/
def lineEvents (lb : List Nat) : List MudEvent :=
  ((splitlines lb).filter (fun l => l.any (fun c => !isSpaceByte c))).map MudEvent.line

/-- The charset request sent on IAC DO CHARSET:
`IAC + SB + CHARSET + SB_REQUEST + b";" + b"US-ASCII" + IAC + SE`. -/
def charsetRequestMessage : List Nat :=
  [255, 250, 42, 1, 59] ++ s2b ("US-ASCII") ++ [255, 240]

/-- `xmlMode` constants of the source. -/
def modeNone : Nat := 0
def modeRoom : Nat := 1
def modeName : Nat := 2
def modeDescription : Nat := 3
def modeExits : Nat := 4
def modePrompt : Nat := 5
def modeTerrain : Nat := 6

/-- Python `bytes.replace(pat, b"", 1)`: remove the first occurrence of `pat`. -/
def removeFirst (pat : List Nat) : List Nat → List Nat
  | [] => []
  | b :: rest =>
    if List.isPrefixOf pat (b :: rest) then (b :: rest).drop pat.length
    else b :: removeFirst pat rest

/-- Direction extraction from a `movement` tag:
`bytes(tagBuffer)[8:].replace(b" dir=", b"", 1).split(b"/", 1)[0]`. -/
def movementDir (t : List Nat) : List Nat :=
  (removeFirst (s2b (" dir=")) (t.drop 8)).takeWhile (fun c => c != 47)

/-- `tagReplacements` lookup (exact match on the whole tag buffer, default `b""`). -/
def tagReplacement (t : List Nat) : List Nat :=
  if t = s2b ("prompt") then s2b ("PROMPT:")
  else if t = s2b ("/prompt") then s2b (":PROMPT")
  else if t = s2b ("name") then s2b ("NAME:")
  else if t = s2b ("/name") then s2b (":NAME")
  else if t = s2b ("tell") then s2b ("TELL:")
  else if t = s2b ("/tell") then s2b (":TELL")
  else if t = s2b ("narrate") then s2b ("NARRATE:")
  else if t = s2b ("/narrate") then s2b (":NARRATE")
  else if t = s2b ("pray") then s2b ("PRAY:")
  else if t = s2b ("/pray") then s2b (":PRAY")
  else if t = s2b ("say") then s2b ("SAY:")
  else if t = s2b ("/say") then s2b (":SAY")
  else if t = s2b ("emote") then s2b ("EMOTE:")
  else if t = s2b ("/emote") then s2b (":EMOTE")
  else []

/-- The mutable state of the decoder loop of `Server.run`, plus three
history fields (`events`, `mpiThreads`, `serverSent`) recording the
queue puts, the MPI worker spawns (command byte, data bytes) and the
bytes sent to the server from inside the byte loop. -/
structure DecoderState where
  inIAC : Bool
  inSubOption : Bool
  inCharset : Bool
  inCharsetResponse : Bool
  inMPI : Bool
  mpiCounter : Nat
  mpiCommand : Option Nat
  mpiLen : Option Nat
  mpiBuffer : List Nat
  clientBuffer : List Nat
  tagBuffer : List Nat
  textBuffer : List Nat
  lineBuffer : List Nat
  charsetResponseCode : Option Nat
  charsetResponseBuffer : List Nat
  readingTag : Bool
  inGratuitous : Bool
  xmlMode : Nat
  events : List MudEvent
  mpiThreads : List (Option Nat × List Nat)
  serverSent : List Nat
deriving DecidableEq, Repr

/-- The decoder state at the start of `Server.run`'s loop. -/
def initState : DecoderState where
  inIAC := false
  inSubOption := false
  inCharset := false
  inCharsetResponse := false
  inMPI := false
  mpiCounter := 0
  mpiCommand := none
  mpiLen := none
  mpiBuffer := []
  clientBuffer := []
  tagBuffer := []
  textBuffer := []
  lineBuffer := []
  charsetResponseCode := none
  charsetResponseBuffer := []
  readingTag := false
  inGratuitous := false
  xmlMode := modeNone
  events := []
  mpiThreads := []
  serverSent := []

/-- The XML tag dispatch performed when `>` ends a tag
(lines 257-294 of `main.py`). -/
def tagTransition (st : DecoderState) : DecoderState :=
  if st.xmlMode = modeNone then
    if List.isPrefixOf (s2b ("exits")) st.tagBuffer then { st with xmlMode := modeExits }
    else if List.isPrefixOf (s2b ("prompt")) st.tagBuffer then { st with xmlMode := modePrompt }
    else if List.isPrefixOf (s2b ("room")) st.tagBuffer then { st with xmlMode := modeRoom }
    else if List.isPrefixOf (s2b ("movement")) st.tagBuffer then
      { st with events := st.events ++ [MudEvent.movement (movementDir st.tagBuffer)] }
    else st
  else if st.xmlMode = modeRoom then
    if List.isPrefixOf (s2b ("name")) st.tagBuffer then { st with xmlMode := modeName }
    else if List.isPrefixOf (s2b ("description")) st.tagBuffer then { st with xmlMode := modeDescription }
    else if List.isPrefixOf (s2b ("terrain")) st.tagBuffer then { st with xmlMode := modeTerrain }
    else if List.isPrefixOf (s2b ("gratuitous")) st.tagBuffer then { st with inGratuitous := true }
    else if List.isPrefixOf (s2b ("/gratuitous")) st.tagBuffer then { st with inGratuitous := false }
    else if List.isPrefixOf (s2b ("/room")) st.tagBuffer then
      { st with events := st.events ++ [MudEvent.dynamic st.textBuffer], xmlMode := modeNone }
    else st
  else if st.xmlMode = modeName ∧ List.isPrefixOf (s2b ("/name")) st.tagBuffer then
    { st with events := st.events ++ [MudEvent.name st.textBuffer], xmlMode := modeRoom }
  else if st.xmlMode = modeDescription ∧ List.isPrefixOf (s2b ("/description")) st.tagBuffer then
    { st with events := st.events ++ [MudEvent.description st.textBuffer], xmlMode := modeRoom }
  else if st.xmlMode = modeTerrain ∧ List.isPrefixOf (s2b ("/terrain")) st.tagBuffer then
    { st with xmlMode := modeRoom }
  else if st.xmlMode = modeExits ∧ List.isPrefixOf (s2b ("/exits")) st.tagBuffer then
    { st with events := st.events ++ [MudEvent.exits st.textBuffer], xmlMode := modeNone }
  else if st.xmlMode = modePrompt ∧ List.isPrefixOf (s2b ("/prompt")) st.tagBuffer then
    { st with events := st.events ++ [MudEvent.prompt st.textBuffer], xmlMode := modeNone }
  else st

/-- One iteration of the byte loop of `Server.run`
(`for byte in bytearray(data): ...`, lines 161-324 of `main.py`),
parameterised by the output format and the configured prompt
terminator. -/
def processByte (fmt : OutputFormat) (pt : List Nat) (st : DecoderState) (b : Nat) :
    DecoderState :=
  if st.inIAC then
    let st1 := { st with clientBuffer := st.clientBuffer ++ [b] }
    if isNegotiation b then st1
    else
      let st2 := { st1 with inIAC := false }
      if b = ordSB then { st2 with inSubOption := true }
      else if b = ordSE then
        if st2.inCharset && st2.inCharsetResponse then
          { st2 with clientBuffer := dropLastN 2 st2.clientBuffer,
                     charsetResponseCode := none, charsetResponseBuffer := [],
                     inCharsetResponse := false, inCharset := false, inSubOption := false }
        else { st2 with inSubOption := false }
      else if st2.inSubOption then st2
      else if b = ordIAC then
        let st3 := { st2 with mpiCounter := 0 }
        if st3.inMPI then
          { st3 with mpiBuffer := st3.mpiBuffer ++ [b],
                     clientBuffer := dropLastN 2 st3.clientBuffer }
        else if st3.xmlMode = modeNone then
          { st3 with lineBuffer := st3.lineBuffer ++ [b] }
        else st3
      else if b = ordCHARSET ∧ st2.inCharset = true ∧ lastN 3 st2.clientBuffer = [255, 253, 42] then
        { st2 with serverSent := st2.serverSent ++ charsetRequestMessage,
                   clientBuffer := dropLastN 3 st2.clientBuffer }
      else if b = ordGA then
        let st3 := { st2 with clientBuffer := dropLastN 2 st2.clientBuffer ++ pt,
                              events := st2.events ++ [MudEvent.iacGa] }
        if st3.xmlMode = modeNone then { st3 with lineBuffer := st3.lineBuffer ++ [13, 10] }
        else st3
      else st2
  else if b = ordIAC then
    { st with clientBuffer := st.clientBuffer ++ [b], inIAC := true }
  else if st.inSubOption = true ∨ isIgnored b then
    if b = ordCHARSET ∧ st.inCharset = true ∧ lastN 2 st.clientBuffer = [255, 250] then
      { st with clientBuffer := dropLastN 2 st.clientBuffer, inCharsetResponse := true }
    else if st.inCharsetResponse = true ∧ ¬ isIgnored b then
      match st.charsetResponseCode with
      | none => { st with charsetResponseCode := some b }
      | some _ => { st with charsetResponseBuffer := st.charsetResponseBuffer ++ [b] }
    else { st with clientBuffer := st.clientBuffer ++ [b] }
  else if st.inMPI then
    if b = ordLF ∧ st.mpiCommand = none ∧ st.mpiLen = none then
      if headerValid st.mpiBuffer then
        { st with mpiCommand := st.mpiBuffer.head?,
                  mpiLen := some (digitsToNat (st.mpiBuffer.drop 1)),
                  mpiBuffer := [] }
      else { st with inMPI := false, mpiBuffer := [] }
    else
      let buf := st.mpiBuffer ++ [b]
      match st.mpiLen with
      | some n =>
        if n ≤ buf.length then
          { st with mpiThreads := st.mpiThreads ++ [(st.mpiCommand, buf)],
                    mpiBuffer := [], mpiCommand := none, mpiLen := none, inMPI := false }
        else { st with mpiBuffer := buf }
      | none => { st with mpiBuffer := buf }
  else if (b = 126 ∧ st.mpiCounter = 0 ∧ endsWithLF st.clientBuffer = true)
      ∨ (b = 36 ∧ st.mpiCounter = 1) ∨ (b = 35 ∧ st.mpiCounter = 2) then
    { st with mpiCounter := st.mpiCounter + 1 }
  else if b = 69 ∧ st.mpiCounter = 3 then
    { st with inMPI := true, mpiCounter := 0 }
  else if st.readingTag then
    let st1 := { st with mpiCounter := 0 }
    let st2 :=
      if b = 62 then
        let st' := tagTransition st1
        let st'' :=
          if fmt = OutputFormat.tintin then
            { st' with clientBuffer := st'.clientBuffer ++ tagReplacement st'.tagBuffer }
          else st'
        { st'' with tagBuffer := [], textBuffer := [], readingTag := false }
      else { st1 with tagBuffer := st1.tagBuffer ++ [b] }
    if fmt = OutputFormat.raw then { st2 with clientBuffer := st2.clientBuffer ++ [b] }
    else st2
  else if b = 60 then
    let st1 := { st with mpiCounter := 0, readingTag := true }
    if fmt = OutputFormat.raw then { st1 with clientBuffer := st1.clientBuffer ++ [b] }
    else st1
  else
    let st1 := { st with mpiCounter := 0 }
    let st2 :=
      if st1.xmlMode = modeNone then
        if b = ordLF ∧ st1.lineBuffer ≠ [] then
          { st1 with events := st1.events ++ lineEvents st1.lineBuffer, lineBuffer := [] }
        else { st1 with lineBuffer := st1.lineBuffer ++ [b] }
      else { st1 with textBuffer := st1.textBuffer ++ [b] }
    if fmt = OutputFormat.raw ∨ st2.inGratuitous = false then
      { st2 with clientBuffer := st2.clientBuffer ++ [b] }
    else st2

/-- Processing a whole byte string through the loop. -/
def processBytes (fmt : OutputFormat) (pt : List Nat) (st : DecoderState)
    (l : List Nat) : DecoderState :=
  l.foldl (processByte fmt pt) st

/-- Flushing the per-read client buffer to the client socket:
`data if rawFormat else unescapeXML(data, isbytes=True)`. -/
def isDigitB (b : Nat) : Bool := 48 ≤ b && b ≤ 57

def isHexDigitB (b : Nat) : Bool :=
  (48 ≤ b && b ≤ 57) || (97 ≤ b && b ≤ 102) || (65 ≤ b && b ≤ 70)

def hexVal (b : Nat) : Nat :=
  if 48 ≤ b && b ≤ 57 then b - 48 else if 97 ≤ b then b - 87 else b - 55

def hexToNat (l : List Nat) : Nat := l.foldl (fun n d => n * 16 + hexVal d) 0

/-- Modelled from the spec: `unescapeXML` is defined in `mapper/utils.py`,
a file of this repository that is not among the given sources.  Per spec
section 4.5, before the accumulated client buffer is written to the
socket in normal and tintin modes, the XML numeric and named entity
references `&lt; &gt; &amp; &quot; &#NNN; &#xHH;` are replaced with
their literal bytes.  The fuel argument of `unescapeAux` is the input
length, which bounds the recursion since every step consumes at least
one byte. -/
def unescapeAux : Nat → List Nat → List Nat
  | 0, l => l
  | _, [] => []
  | fuel + 1, 38 :: rest =>
    if List.isPrefixOf [108, 116, 59] rest then 60 :: unescapeAux fuel (rest.drop 3)
    else if List.isPrefixOf [103, 116, 59] rest then 62 :: unescapeAux fuel (rest.drop 3)
    else if List.isPrefixOf [97, 109, 112, 59] rest then 38 :: unescapeAux fuel (rest.drop 4)
    else if List.isPrefixOf [113, 117, 111, 116, 59] rest then 34 :: unescapeAux fuel (rest.drop 5)
    else if List.isPrefixOf [35, 120] rest ∧ (rest.drop 2).takeWhile isHexDigitB ≠ []
        ∧ ((rest.drop 2).dropWhile isHexDigitB).take 1 = [59] then
      hexToNat ((rest.drop 2).takeWhile isHexDigitB) % 256
        :: unescapeAux fuel (((rest.drop 2).dropWhile isHexDigitB).drop 1)
    else if List.isPrefixOf [35] rest ∧ (rest.drop 1).takeWhile isDigitB ≠ []
        ∧ ((rest.drop 1).dropWhile isDigitB).take 1 = [59] then
      digitsToNat ((rest.drop 1).takeWhile isDigitB) % 256
        :: unescapeAux fuel (((rest.drop 1).dropWhile isDigitB).drop 1)
    else 38 :: unescapeAux fuel rest
  | fuel + 1, b :: rest => b :: unescapeAux fuel rest

/-- Modelled from the spec: see `unescapeAux`. -/
def unescapeXML (l : List Nat) : List Nat := unescapeAux l.length l

/-- The value written to the client socket at the end of a read
(line 327 of `main.py`): the buffer itself in raw mode, the
entity-unescaped buffer otherwise. -/
def flushOutput (fmt : OutputFormat) (cb : List Nat) : List Nat :=
  if fmt = OutputFormat.raw then cb else unescapeXML cb

/-- A byte that none of the telnet, MPI-escape or XML-tag rules divert:
not `<`, not `>`, not IAC, not an ignored byte (0x00 / 0x11) and not `~`. -/
def plainByte (b : Nat) : Prop :=
  b ≠ 60 ∧ b ≠ 62 ∧ b ≠ 255 ∧ b ≠ 0 ∧ b ≠ 17 ∧ b ≠ 126

instance (b : Nat) : Decidable (plainByte b) := by unfold plainByte; infer_instance

/-- A decoder state in which plain text is being processed: no telnet,
MPI or XML construct is open. -/
def plainState (st : DecoderState) : Prop :=
  st.inIAC = false ∧ st.inSubOption = false ∧ st.inMPI = false ∧ st.mpiCounter = 0 ∧
  st.readingTag = false ∧ st.inGratuitous = false ∧ st.xmlMode = modeNone

instance (st : DecoderState) : Decidable (plainState st) := by unfold plainState; infer_instance

/-- Reference line chunker: the effect of a run of plain text bytes on
the line buffer and the emitted `Line` events. -/
def refRun : List Nat → List Nat → List Nat × List MudEvent
  | lb, [] => (lb, [])
  | lb, b :: rest =>
    if b = 10 ∧ lb ≠ [] then
      let r := refRun [] rest
      (r.1, lineEvents lb ++ r.2)
    else refRun (lb ++ [b]) rest

/-- Payloads of the `Line` events of an event list, in order. -/
def linePayloads (evs : List MudEvent) : List (List Nat) :=
  evs.filterMap fun e =>
    match e with
    | MudEvent.line b => some b
    | _ => none

/-- Joining byte strings with a line feed. -/
def joinLF (ls : List (List Nat)) : List Nat := List.intercalate [10] ls

/-- Trailing ASCII whitespace removed. -/
def rstripB (l : List Nat) : List Nat := (l.reverse.dropWhile isSpaceByte).reverse

/-- A byte string with trailing whitespace stripped from each of its
lines (lines delimited by `\n`). -/
def rstripLines (l : List Nat) : List Nat := joinLF ((l.splitOn 10).map rstripB)

/-- A state ready to recognise a line-anchored MPI escape: no telnet
construct open, not in MPI, counter and MPI header state reset. -/
def mpiCleanState (st : DecoderState) : Prop :=
  st.inIAC = false ∧ st.inSubOption = false ∧ st.inMPI = false ∧ st.mpiCounter = 0 ∧
  st.mpiCommand = none ∧ st.mpiLen = none ∧ st.mpiBuffer = []

instance (st : DecoderState) : Decidable (mpiCleanState st) := by
  unfold mpiCleanState; infer_instance

lemma dropLastN_append (n : Nat) (l tail : List Nat) (h : tail.length = n) :
    dropLastN n (l ++ tail) = l := by
  subst h; simp [dropLastN]

lemma lastN_append (n : Nat) (l tail : List Nat) (h : tail.length = n) :
    lastN n (l ++ tail) = tail := by
  subst h; simp [lastN]

/-- The default prompt terminator, `IAC + GA` (line 345 of `main.py`). -/
def pt0 : List Nat := [255, 249]

/-- The input of spec scenario 2. -/
def roomInput : List Nat :=
  s2b ("<room><name>A Path</name><description>Trees.</description><exits>north</exits></room>Plain\n")

lemma dropLastN2_snoc (l : List Nat) (a b : Nat) : dropLastN 2 ((l ++ [a]) ++ [b]) = l := by
  have h : (l ++ [a]) ++ [b] = l ++ [a, b] := by simp
  rw [h]; exact dropLastN_append 2 l [a, b] rfl

lemma dropLastN3_snoc (l : List Nat) (a b c : Nat) :
    dropLastN 3 (((l ++ [a]) ++ [b]) ++ [c]) = l := by
  have h : ((l ++ [a]) ++ [b]) ++ [c] = l ++ [a, b, c] := by simp
  rw [h]; exact dropLastN_append 3 l [a, b, c] rfl

lemma lastN3_snoc (l : List Nat) (a b c : Nat) :
    lastN 3 (((l ++ [a]) ++ [b]) ++ [c]) = [a, b, c] := by
  have h : ((l ++ [a]) ++ [b]) ++ [c] = l ++ [a, b, c] := by simp
  rw [h]; exact lastN_append 3 l [a, b, c] rfl

lemma dropLastN2_append (l : List Nat) (a b : Nat) : dropLastN 2 (l ++ [a, b]) = l :=
  dropLastN_append 2 l [a, b] rfl

lemma dropLastN3_append (l : List Nat) (a b c : Nat) : dropLastN 3 (l ++ [a, b, c]) = l :=
  dropLastN_append 3 l [a, b, c] rfl

lemma lastN2_append (l : List Nat) (a b : Nat) : lastN 2 (l ++ [a, b]) = [a, b] :=
  lastN_append 2 l [a, b] rfl

lemma lastN3_append (l : List Nat) (a b c : Nat) : lastN 3 (l ++ [a, b, c]) = [a, b, c] :=
  lastN_append 3 l [a, b, c] rfl

lemma tagTransition_mpiCounter (st : DecoderState) :
    (tagTransition st).mpiCounter = st.mpiCounter := by
  unfold tagTransition; split_ifs <;> rfl

lemma processBytes_append (fmt : OutputFormat) (pt : List Nat) (st : DecoderState)
    (l1 l2 : List Nat) :
    processBytes fmt pt st (l1 ++ l2) = processBytes fmt pt (processBytes fmt pt st l1) l2 := by
  simp [processBytes, List.foldl_append]

lemma processBytes_cons (fmt : OutputFormat) (pt : List Nat) (st : DecoderState)
    (b : Nat) (l : List Nat) :
    processBytes fmt pt st (b :: l) = processBytes fmt pt (processByte fmt pt st b) l := rfl

/-- Claim C8: after the charset offer (`inCharset` set), receiving
IAC DO CHARSET makes the decoder send exactly
IAC SB CHARSET REQUEST `;` US-ASCII IAC SE to the server and delete the
three bytes IAC DO CHARSET from the client buffer, so the
acknowledgement is never forwarded to the client. -/
theorem c8_charset_ack (fmt : OutputFormat) (pt : List Nat) (st : DecoderState)
    (hc : st.inCharset = true) (h1 : st.inIAC = false) (h2 : st.inSubOption = false) :
    processBytes fmt pt st [255, 253, 42]
      = { st with serverSent := st.serverSent ++ charsetRequestMessage } := by
  simp only [processBytes, List.foldl_cons, List.foldl_nil]
  simp [processByte, h1, h2, hc, ordIAC, ordSB, ordSE, ordGA, ordCHARSET,
    isNegotiation, lastN3_append, dropLastN3_append, lastN3_snoc, dropLastN3_snoc]

/-- Witness for C8 at a concrete state. -/
theorem c8_witness :
    processBytes OutputFormat.normal pt0 { initState with inCharset := true } [255, 253, 42]
      = { initState with inCharset := true, serverSent := charsetRequestMessage } :=
  (c8_charset_ack OutputFormat.normal pt0 { initState with inCharset := true }
    rfl rfl rfl).trans (by decide)

/-- Claim C9: an MPI header line that is not `E` or `V` followed by at
least one ASCII digit (the empty header line included) aborts the
frame: the MPI buffer is cleared, MPI mode is left, no worker is
started, no event is emitted, the client buffer is untouched, and
processing continues normally. -/
theorem c9_invalid_header (fmt : OutputFormat) (pt : List Nat) (st : DecoderState)
    (hm : st.inMPI = true) (hcmd : st.mpiCommand = none) (hlen : st.mpiLen = none)
    (h1 : st.inIAC = false) (h2 : st.inSubOption = false)
    (hinv : headerValid st.mpiBuffer = false) :
    processByte fmt pt st 10 = { st with inMPI := false, mpiBuffer := [] } := by
  simp [processByte, h1, h2, hm, hcmd, hlen, hinv, isIgnored, ordIAC, ordLF]

/-- Witness for C9: the empty MPI header line. -/
theorem c9_witness :
    processByte OutputFormat.normal pt0 { initState with inMPI := true } 10 = initState :=
  (c9_invalid_header OutputFormat.normal pt0 { initState with inMPI := true }
    rfl rfl rfl rfl rfl (by decide)).trans (by decide)

/-- Claim C10: a byte consumed by one of the first three MPI
escape-progression rules only increments `mpiCounter` and leaves every
other state field — in particular `clientBuffer`, `lineBuffer` and
`textBuffer` — unchanged, in every output format; consequently the
bytes of a partially matched escape that is later abandoned
(for example `\n~$y`) are dropped from the client output and from the
`Line` events. -/
theorem c10_escape_progression (fmt : OutputFormat) (pt : List Nat) (st : DecoderState)
    (b : Nat) (h1 : st.inIAC = false) (h2 : st.inSubOption = false) (h3 : st.inMPI = false)
    (hb : (b = 126 ∧ st.mpiCounter = 0 ∧ endsWithLF st.clientBuffer = true)
      ∨ (b = 36 ∧ st.mpiCounter = 1) ∨ (b = 35 ∧ st.mpiCounter = 2)) :
    processByte fmt pt st b = { st with mpiCounter := st.mpiCounter + 1 }
    ∧ (processBytes OutputFormat.normal pt0 initState (s2b ("x\n~$y\n"))).clientBuffer
        = s2b ("x\ny\n")
    ∧ (processBytes OutputFormat.normal pt0 initState (s2b ("x\n~$y\n"))).events
        = [MudEvent.line [120], MudEvent.line [121]] := by
  refine ⟨?_, by decide, by decide⟩
  rcases hb with ⟨rfl, hcnt, hlf⟩ | ⟨rfl, hcnt⟩ | ⟨rfl, hcnt⟩ <;>
    simp [processByte, h1, h2, h3, hcnt, isIgnored, ordIAC, *]

/-- Witness for C10 at a concrete state. -/
theorem c10_witness :
    processByte OutputFormat.normal pt0 { initState with clientBuffer := [10] } 126
      = { initState with clientBuffer := [10], mpiCounter := 1 } :=
  ((c10_escape_progression OutputFormat.normal pt0 { initState with clientBuffer := [10] }
    126 rfl rfl rfl (Or.inl ⟨rfl, rfl, by decide⟩)).1).trans (by decide)

/-- Claim C4 (amended): an IAC GA sequence whose IAC is processed with
no telnet construct already open (`inIAC` and `inSubOption` both clear)
removes the two bytes IAC GA from the client buffer, appends the
configured prompt terminator, emits exactly one `IacGa` event, and if
`xmlMode = None` also extends the line buffer with CR LF.  Inside an
open sub-option negotiation the sequence is instead forwarded verbatim
with no event (see the counterexample). -/
theorem c4_iac_ga (fmt : OutputFormat) (pt : List Nat) (st : DecoderState)
    (h1 : st.inIAC = false) (h2 : st.inSubOption = false) :
    processBytes fmt pt st [255, 249]
      = { st with clientBuffer := st.clientBuffer ++ pt,
                  events := st.events ++ [MudEvent.iacGa],
                  lineBuffer := if st.xmlMode = modeNone then st.lineBuffer ++ [13, 10]
                                else st.lineBuffer } := by
  simp only [processBytes, List.foldl_cons, List.foldl_nil]
  by_cases hx : st.xmlMode = modeNone <;>
    simp [processByte, h1, h2, hx, ordIAC, ordGA, ordSB, ordSE, ordCHARSET,
      isNegotiation, dropLastN2_append]

/-- Witness for C4 at a concrete state. -/
theorem c4_witness :
    processBytes OutputFormat.normal [62] initState [255, 249]
      = { initState with clientBuffer := [62], events := [MudEvent.iacGa],
                         lineBuffer := [13, 10] } :=
  (c4_iac_ga OutputFormat.normal [62] initState rfl rfl).trans (by decide)

/-- Counterexample to C4 as stated: the stream IAC SB IAC GA contains
IAC GA, yet no `IacGa` event is emitted and no prompt-terminator
substitution happens — the four bytes reach the client buffer
verbatim, because the GA arrives inside an open sub-option. -/
theorem c4_counterexample :
    (processBytes OutputFormat.normal pt0 initState [255, 250, 255, 249]).events = []
    ∧ (processBytes OutputFormat.normal pt0 initState [255, 250, 255, 249]).clientBuffer
        = [255, 250, 255, 249] := by decide

/-- Claim C5 (amended): while `inMPI`, a byte that is not IAC and not
one of the ignored bytes 0x00/0x11 leaves the client buffer unchanged,
and an IAC-escaped 0xFF contributes a single literal 0xFF to the MPI
buffer while leaving the client buffer unchanged.  (Bytes 0x00/0x11 are
diverted by the ignore rule before the MPI rule and do reach the client
buffer — see the counterexample.) -/
theorem c5_mpi_isolation (fmt : OutputFormat) (pt : List Nat) (st : DecoderState) (b : Nat)
    (hm : st.inMPI = true) (h1 : st.inIAC = false) (h2 : st.inSubOption = false)
    (hb : b ≠ 255 ∧ b ≠ 0 ∧ b ≠ 17) :
    (processByte fmt pt st b).clientBuffer = st.clientBuffer
    ∧ (processBytes fmt pt st [255, 255]).clientBuffer = st.clientBuffer
    ∧ (processBytes fmt pt st [255, 255]).mpiBuffer = st.mpiBuffer ++ [255] := by
  refine ⟨?_, ?_, ?_⟩
  · rcases hb with ⟨hb1, hb2, hb3⟩
    by_cases hlf : b = ordLF ∧ st.mpiCommand = none ∧ st.mpiLen = none
    · by_cases hv : headerValid st.mpiBuffer = true <;>
        simp [processByte, h1, h2, hm, hb1, hb2, hb3, isIgnored, ordIAC, ordLF,
          ordCHARSET, hlf, hv]
    · cases hml : st.mpiLen with
      | none =>
        simp [processByte, h1, h2, hm, hb1, hb2, hb3, isIgnored, ordIAC, ordLF, hlf, hml]
        split
        · split <;> rfl
        · rfl
      | some n =>
        by_cases hn : n ≤ st.mpiBuffer.length + 1 <;>
          simp [processByte, h1, h2, hm, hb1, hb2, hb3, isIgnored, ordIAC, ordLF, hlf, hml, hn]
  · simp only [processBytes, List.foldl_cons, List.foldl_nil]
    simp [processByte, h1, h2, hm, ordIAC, ordSB, ordSE, isNegotiation, dropLastN2_append]
  · simp only [processBytes, List.foldl_cons, List.foldl_nil]
    simp [processByte, h1, h2, hm, ordIAC, ordSB, ordSE, isNegotiation, dropLastN2_append]

/-- Witness for C5 at a concrete state: a body byte and an IAC-escaped
0xFF both leave the client buffer empty. -/
theorem c5_witness :
    (processByte OutputFormat.normal pt0 { initState with inMPI := true } 97).clientBuffer = []
    ∧ (processBytes OutputFormat.normal pt0 { initState with inMPI := true }
        [255, 255]).mpiBuffer = [255] := by
  have h := c5_mpi_isolation OutputFormat.normal pt0 { initState with inMPI := true } 97
    rfl rfl rfl (by decide)
  exact ⟨h.1, h.2.2⟩

/-- Counterexample to C5 as stated: in the frame `\n~$#EE1\n` followed
by the body byte 0x00, the NUL byte is diverted by the ignore rule
before the MPI rule: it is appended to the client buffer and never
reaches the MPI buffer, although `inMPI` is still set. -/
theorem c5_counterexample :
    (processBytes OutputFormat.normal pt0 initState (s2b ("\n~$#EE1\n") ++ [0])).inMPI = true
    ∧ (processBytes OutputFormat.normal pt0 initState
        (s2b ("\n~$#EE1\n") ++ [0])).clientBuffer = [10, 0]
    ∧ (processBytes OutputFormat.normal pt0 initState
        (s2b ("\n~$#EE1\n") ++ [0])).mpiBuffer = [] := by decide

/-- Claim C6 (amended): for a byte dispatched by the text/tag rules of
the classifier — no IAC sequence, sub-option or MPI body open, and the
byte not IAC and not an ignored byte — any byte that does not continue
the MPI escape progression leaves `mpiCounter` equal to 0.  (Bytes
diverted into the telnet branches leave the counter untouched — see the
counterexample.) -/
theorem c6_counter_reset (fmt : OutputFormat) (pt : List Nat) (st : DecoderState) (b : Nat)
    (h1 : st.inIAC = false) (h2 : st.inSubOption = false) (h3 : st.inMPI = false)
    (hb : b ≠ 255 ∧ b ≠ 0 ∧ b ≠ 17)
    (hp1 : ¬(b = 126 ∧ st.mpiCounter = 0 ∧ endsWithLF st.clientBuffer = true))
    (hp2 : ¬(b = 36 ∧ st.mpiCounter = 1)) (hp3 : ¬(b = 35 ∧ st.mpiCounter = 2)) :
    (processByte fmt pt st b).mpiCounter = 0 := by
  obtain ⟨hb1, hb2, hb3⟩ := hb
  by_cases he : b = 69 ∧ st.mpiCounter = 3
  · simp [processByte, h1, h2, h3, hb1, hb2, hb3, isIgnored, ordIAC, hp1, hp2, hp3, he]
  · by_cases hrt : st.readingTag = true
    · simp [processByte, h1, h2, h3, hb1, hb2, hb3, isIgnored, ordIAC, hp1, hp2, hp3, he, hrt,
        tagTransition_mpiCounter]
      repeat' split
      all_goals simp [tagTransition_mpiCounter]
    · by_cases hlt : b = 60 <;>
        simp [processByte, h1, h2, h3, hb1, hb2, hb3, isIgnored, ordIAC, hp1, hp2, hp3, he,
          hrt, hlt] <;>
        (repeat' split) <;> rfl

/-- Witness for C6 at a concrete state. -/
theorem c6_witness :
    (processByte OutputFormat.normal pt0 { initState with mpiCounter := 1 } 97).mpiCounter = 0 :=
  c6_counter_reset OutputFormat.normal pt0 { initState with mpiCounter := 1 } 97
    rfl rfl rfl (by decide) (by decide) (by decide) (by decide)

/-- Counterexample to C6 as stated: after `\n~` the counter is 1; the
telnet negotiation bytes IAC DO do not continue the escape progression,
yet the counter remains 1 because the IAC branches never reset it. -/
theorem c6_counterexample :
    (processBytes OutputFormat.normal pt0 initState [10, 126, 255, 253, 24]).mpiCounter = 1 := by
  decide

/-- Claim C7 (amended): while `inGratuitous` is set and an element is
open (`xmlMode ≠ None`), a text byte is appended to `text_buffer` and
does not enter `client_buffer` unless the output format is raw.
(`text_buffer` is, however, cleared at every tag end, so in the example
`<gratuitous>hidden</gratuitous>shown` it holds only "shown" — see the
counterexample.) -/
theorem c7_gratuitous (fmt : OutputFormat) (pt : List Nat) (st : DecoderState) (b : Nat)
    (hg : st.inGratuitous = true) (h1 : st.inIAC = false) (h2 : st.inSubOption = false)
    (h3 : st.inMPI = false) (h4 : st.readingTag = false) (hx : st.xmlMode ≠ modeNone)
    (hb : b ≠ 255 ∧ b ≠ 0 ∧ b ≠ 17 ∧ b ≠ 60)
    (hp1 : ¬(b = 126 ∧ st.mpiCounter = 0 ∧ endsWithLF st.clientBuffer = true))
    (hp2 : ¬(b = 36 ∧ st.mpiCounter = 1)) (hp3 : ¬(b = 35 ∧ st.mpiCounter = 2))
    (hp4 : ¬(b = 69 ∧ st.mpiCounter = 3)) :
    (processByte fmt pt st b).textBuffer = st.textBuffer ++ [b]
    ∧ (fmt ≠ OutputFormat.raw → (processByte fmt pt st b).clientBuffer = st.clientBuffer)
    ∧ (fmt = OutputFormat.raw → (processByte fmt pt st b).clientBuffer
        = st.clientBuffer ++ [b]) := by
  obtain ⟨hb1, hb2, hb3, hb4⟩ := hb
  refine ⟨?_, fun hf => ?_, fun hf => ?_⟩
  · simp [processByte, hg, h1, h2, h3, h4, hx, hb1, hb2, hb3, hb4, isIgnored, ordIAC,
      hp1, hp2, hp3, hp4]
    split <;> rfl
  · simp [processByte, hg, h1, h2, h3, h4, hx, hb1, hb2, hb3, hb4, isIgnored, ordIAC,
      hp1, hp2, hp3, hp4, hf]
  · simp [processByte, hg, h1, h2, h3, h4, hx, hb1, hb2, hb3, hb4, isIgnored, ordIAC,
      hp1, hp2, hp3, hp4, hf]

/-- Witness for C7 at a concrete state. -/
theorem c7_witness :
    (processByte OutputFormat.normal pt0
      { initState with inGratuitous := true, xmlMode := modeRoom } 104).textBuffer = [104]
    ∧ (processByte OutputFormat.normal pt0
      { initState with inGratuitous := true, xmlMode := modeRoom } 104).clientBuffer = [] := by
  have h := c7_gratuitous OutputFormat.normal pt0
    { initState with inGratuitous := true, xmlMode := modeRoom } 104
    rfl rfl rfl rfl rfl (by decide) (by decide) (by decide) (by decide) (by decide) (by decide)
  exact ⟨h.1, h.2.1 (by decide)⟩

/-- Counterexample to C7 as stated: after
`<room><gratuitous>hidden</gratuitous>shown`, `text_buffer` holds only
"shown" — not "hiddenshown" — because it is cleared at every `>`;
the client (normal mode) receives exactly "shown". -/
theorem c7_counterexample :
    (processBytes OutputFormat.normal pt0 initState
      (s2b ("<room><gratuitous>hidden</gratuitous>shown"))).textBuffer ≠ s2b ("hiddenshown")
    ∧ (processBytes OutputFormat.normal pt0 initState
      (s2b ("<room><gratuitous>hidden</gratuitous>shown"))).textBuffer = s2b ("shown")
    ∧ (processBytes OutputFormat.normal pt0 initState
      (s2b ("<room><gratuitous>hidden</gratuitous>shown"))).clientBuffer = s2b ("shown") := by
  decide

set_option maxRecDepth 100000 in
/-- Counterexample to C1 as stated: decoding spec scenario 2's input
does not produce the claimed event list — no `Exits` event is emitted
(the `exits` transition fires only with `xmlMode = None`, not inside a
room block) and `Dynamic` is empty (`text_buffer` is cleared at every
`>`). -/
theorem c1_counterexample :
    (processBytes OutputFormat.normal pt0 initState roomInput).events
      ≠ [MudEvent.name (s2b ("A Path")), MudEvent.description (s2b ("Trees.")),
         MudEvent.exits (s2b ("north")), MudEvent.dynamic (s2b ("A PathTrees.north")),
         MudEvent.line (s2b ("Plain"))] := by decide

set_option maxRecDepth 100000 in
/-- Claim C1 (amended): feeding the decoder (normal format, initial
state) the scenario-2 byte sequence emits, in order,
Name("A Path"), Description("Trees."), Dynamic("") and Line("Plain") —
the `<exits>` element inside the room block causes no transition and no
`Exits` event, and `Dynamic` carries only the text accumulated since
the last tag — while the flushed client buffer still equals
"A PathTrees.northPlain\n". -/
theorem c1_room_scenario :
    (processBytes OutputFormat.normal pt0 initState roomInput).events
      = [MudEvent.name (s2b ("A Path")), MudEvent.description (s2b ("Trees.")),
         MudEvent.dynamic [], MudEvent.line (s2b ("Plain"))]
    ∧ flushOutput OutputFormat.normal
        (processBytes OutputFormat.normal pt0 initState roomInput).clientBuffer
      = s2b ("A PathTrees.northPlain\n") := by decide

lemma plain_step (pt : List Nat) (st : DecoderState) (b : Nat)
    (hst : plainState st) (hb : plainByte b) :
    processByte OutputFormat.normal pt st b =
      if b = 10 ∧ st.lineBuffer ≠ [] then
        { st with events := st.events ++ lineEvents st.lineBuffer, lineBuffer := [],
                  clientBuffer := st.clientBuffer ++ [b] }
      else { st with lineBuffer := st.lineBuffer ++ [b],
                     clientBuffer := st.clientBuffer ++ [b] } := by
  obtain ⟨p1, p2, p3, p4, p5, p6, p7⟩ := hst
  obtain ⟨b1, b2, b3, b4, b5, b6⟩ := hb
  by_cases hL : b = 10 ∧ st.lineBuffer ≠ [] <;>
    simp [processByte, p1, p2, p3, p4, p5, p6, p7, b1, b2, b3, b4, b5, b6,
      isIgnored, ordIAC, ordLF, hL]

lemma plain_run (pt : List Nat) (S : List Nat) : ∀ st : DecoderState, plainState st →
    (∀ b ∈ S, plainByte b) →
    processBytes OutputFormat.normal pt st S =
      { st with clientBuffer := st.clientBuffer ++ S,
                lineBuffer := (refRun st.lineBuffer S).1,
                events := st.events ++ (refRun st.lineBuffer S).2 } := by
  induction S with
  | nil => intro st hst hgood; simp [processBytes, refRun]
  | cons b S ih =>
    intro st hst hgood
    have hb := hgood b (List.mem_cons_self b S)
    rw [processBytes_cons, plain_step pt st b hst hb]
    by_cases hL : b = 10 ∧ st.lineBuffer ≠ []
    · rw [if_pos hL]
      have hst' : plainState { st with
          events := st.events ++ lineEvents st.lineBuffer
          lineBuffer := []
          clientBuffer := st.clientBuffer ++ [b] } := hst
      rw [ih _ hst' (fun x hx => hgood x (List.mem_cons_of_mem b hx))]
      simp [refRun, hL]
    · rw [if_neg hL]
      have hst' : plainState { st with
          lineBuffer := st.lineBuffer ++ [b]
          clientBuffer := st.clientBuffer ++ [b] } := hst
      rw [ih _ hst' (fun x hx => hgood x (List.mem_cons_of_mem b hx))]
      simp [refRun, hL]

/-- Claim C3 (amended): for every byte sequence S containing none of
`<`, `>`, IAC, the ignored bytes 0x00/0x11, or `~` (so that no byte is
diverted by a telnet, ignore or MPI-escape rule), decoding S from the
initial state emits exactly the `Line` events of the reference line
chunker `refRun` — the non-blank `splitlines` segments of each
completed line, whitespace retained — and the client buffer in normal
mode equals S. -/
theorem c3_plain_text (pt : List Nat) (S : List Nat) (hS : ∀ b ∈ S, plainByte b) :
    (processBytes OutputFormat.normal pt initState S).clientBuffer = S
    ∧ (processBytes OutputFormat.normal pt initState S).events = (refRun [] S).2
    ∧ (processBytes OutputFormat.normal pt initState S).lineBuffer = (refRun [] S).1 := by
  rw [plain_run pt S initState (by decide) hS]
  simp [initState]

/-- Witness for C3 at a concrete input. -/
theorem c3_witness :
    (processBytes OutputFormat.normal pt0 initState (s2b ("one\ntwo \n\n"))).clientBuffer
      = s2b ("one\ntwo \n\n")
    ∧ (processBytes OutputFormat.normal pt0 initState (s2b ("one\ntwo \n\n"))).events
      = [MudEvent.line (s2b ("one")), MudEvent.line (s2b ("two "))] :=
  ⟨(c3_plain_text pt0 (s2b ("one\ntwo \n\n")) (by decide)).1,
   ((c3_plain_text pt0 (s2b ("one\ntwo \n\n")) (by decide)).2.1).trans (by decide)⟩

/-- Counterexample to C3 as stated: for S = `a \n` the single `Line`
event carries "a " with its trailing space — the payloads joined by
`\n` do not equal S with trailing whitespace stripped from each line,
although the client buffer does equal S. -/
theorem c3_counterexample :
    joinLF (linePayloads
        (processBytes OutputFormat.normal pt0 initState (s2b ("a \n"))).events)
      ≠ rstripLines (s2b ("a \n"))
    ∧ (processBytes OutputFormat.normal pt0 initState (s2b ("a \n"))).events
      = [MudEvent.line (s2b ("a "))]
    ∧ (processBytes OutputFormat.normal pt0 initState (s2b ("a \n"))).clientBuffer
      = s2b ("a \n") := by decide

lemma mpi_escape_entry (fmt : OutputFormat) (pt : List Nat) (st : DecoderState)
    (h1 : st.inIAC = false) (h2 : st.inSubOption = false) (h3 : st.inMPI = false)
    (h4 : st.mpiCounter = 0) (h5 : endsWithLF st.clientBuffer = true) :
    processBytes fmt pt st [126, 36, 35, 69] = { st with inMPI := true } := by
  simp only [processBytes, List.foldl_cons, List.foldl_nil]
  rw [show processByte fmt pt st 126 = { st with mpiCounter := 1 } from by
    simp [processByte, h1, h2, h3, h4, h5, isIgnored, ordIAC]]
  rw [show processByte fmt pt { st with mpiCounter := 1 } 36 = { st with mpiCounter := 2 }
    from by simp [processByte, h1, h2, h3, isIgnored, ordIAC]]
  rw [show processByte fmt pt { st with mpiCounter := 2 } 35 = { st with mpiCounter := 3 }
    from by simp [processByte, h1, h2, h3, isIgnored, ordIAC]]
  rw [show processByte fmt pt { st with mpiCounter := 3 } 69
      = { st with inMPI := true, mpiCounter := 0 }
    from by simp [processByte, h1, h2, h3, isIgnored, ordIAC]]
  rw [← h4]

lemma mpi_header_accum (fmt : OutputFormat) (pt : List Nat) (hs : List Nat) :
    ∀ st : DecoderState, st.inIAC = false → st.inSubOption = false → st.inMPI = true →
    st.mpiCommand = none → st.mpiLen = none →
    (∀ h ∈ hs, h ≠ 10 ∧ h ≠ 255 ∧ h ≠ 0 ∧ h ≠ 17) →
    processBytes fmt pt st hs = { st with mpiBuffer := st.mpiBuffer ++ hs } := by
  induction hs with
  | nil => intro st _ _ _ _ _ _; simp [processBytes]
  | cons h hs ih =>
    intro st h1 h2 h3 h4 h5 hgood
    obtain ⟨g1, g2, g3, g4⟩ := hgood h (List.mem_cons_self h hs)
    rw [processBytes_cons]
    rw [show processByte fmt pt st h = { st with mpiBuffer := st.mpiBuffer ++ [h] } from by
      simp [processByte, h1, h2, h3, h4, h5, g1, g2, g3, g4, isIgnored, ordIAC, ordLF]]
    have hst' : ({ st with mpiBuffer := st.mpiBuffer ++ [h] } : DecoderState).inIAC = false := h1
    rw [ih _ hst' h2 h3 h4 h5 (fun x hx => hgood x (List.mem_cons_of_mem h hx))]
    simp

lemma mpi_header_parse (fmt : OutputFormat) (pt : List Nat) (st : DecoderState)
    (c : Nat) (ds : List Nat)
    (h1 : st.inIAC = false) (h2 : st.inSubOption = false) (h3 : st.inMPI = true)
    (h4 : st.mpiCommand = none) (h5 : st.mpiLen = none)
    (hbuf : st.mpiBuffer = c :: ds) (hc : c = 69 ∨ c = 86) (hds : isDigits ds = true) :
    processByte fmt pt st 10
      = { st with mpiCommand := some c, mpiLen := some (digitsToNat ds), mpiBuffer := [] } := by
  have hv : headerValid (c :: ds) = true := by
    rcases hc with rfl | rfl <;> simp [headerValid, hds]
  simp [processByte, h1, h2, h3, h4, h5, hv, hbuf, isIgnored, ordIAC, ordLF]

lemma mpi_body_complete (fmt : OutputFormat) (pt : List Nat) (n : Nat) (bs : List Nat) :
    ∀ st : DecoderState, st.inIAC = false → st.inSubOption = false → st.inMPI = true →
    st.mpiLen = some n →
    (∀ b ∈ bs, b ≠ 255 ∧ b ≠ 0 ∧ b ≠ 17) →
    st.mpiBuffer.length + bs.length = n → bs ≠ [] →
    processBytes fmt pt st bs =
      { st with mpiThreads := st.mpiThreads ++ [(st.mpiCommand, st.mpiBuffer ++ bs)],
                mpiBuffer := [], mpiCommand := none, mpiLen := none, inMPI := false } := by
  induction bs with
  | nil => intro st _ _ _ _ _ _ hne; exact absurd rfl hne
  | cons b bs ih =>
    intro st h1 h2 h3 h4 hgood hsum _
    obtain ⟨g1, g2, g3⟩ := hgood b (List.mem_cons_self b bs)
    cases bs with
    | nil =>
      have hn : n ≤ st.mpiBuffer.length + 1 := by simp at hsum; omega
      rw [processBytes_cons]
      rw [show processByte fmt pt st b
          = { st with mpiThreads := st.mpiThreads ++ [(st.mpiCommand, st.mpiBuffer ++ [b])],
                      mpiBuffer := [], mpiCommand := none, mpiLen := none, inMPI := false }
        from by
          simp [processByte, h1, h2, h3, h4, g1, g2, g3, isIgnored, ordIAC, ordLF, hn]]
      simp [processBytes]
    | cons b' bs' =>
      have hlt : ¬ n ≤ st.mpiBuffer.length + 1 := by simp at hsum; omega
      rw [processBytes_cons]
      rw [show processByte fmt pt st b = { st with mpiBuffer := st.mpiBuffer ++ [b] } from by
        simp [processByte, h1, h2, h3, h4, g1, g2, g3, isIgnored, ordIAC, ordLF, hlt]]
      have hst1 : ({ st with mpiBuffer := st.mpiBuffer ++ [b] } : DecoderState).inIAC
          = false := h1
      have hsum' : ({ st with mpiBuffer := st.mpiBuffer ++ [b] } :
          DecoderState).mpiBuffer.length + (b' :: bs').length = n := by
        simp at hsum ⊢; omega
      rw [ih _ hst1 h2 h3 h4 (fun x hx => hgood x (List.mem_cons_of_mem b hx)) hsum'
        (List.cons_ne_nil b' bs')]
      simp

lemma processBytes_single (fmt : OutputFormat) (pt : List Nat) (st : DecoderState) (b : Nat) :
    processBytes fmt pt st [b] = processByte fmt pt st b := rfl

/-- Claim C2 (amended): a line-anchored MPI frame — the escape `~$#E`
arriving with the client buffer ending in a newline and MPI state
clean, a header `E` or `V` followed by ASCII digits declaring a length
n with n ≥ 1, a line feed, and exactly the n body bytes (none of which
is IAC or an ignored byte) — spawns exactly one MPI worker whose
command is the header's first byte and whose data is exactly the n
body bytes, while the client buffer and every other state field are
left unchanged.  For a declared length of 0 the worker is spawned only
after one extra byte is consumed and carries that byte (see the
counterexample). -/
theorem c2_mpi_frame (fmt : OutputFormat) (pt : List Nat) (st : DecoderState)
    (hst : mpiCleanState st) (hnl : endsWithLF st.clientBuffer = true)
    (c : Nat) (hc : c = 69 ∨ c = 86) (ds : List Nat) (hds : isDigits ds = true)
    (body : List Nat) (hbody : ∀ b ∈ body, b ≠ 255 ∧ b ≠ 0 ∧ b ≠ 17)
    (hlen : body.length = digitsToNat ds) (hpos : 1 ≤ digitsToNat ds) :
    processBytes fmt pt st ([126, 36, 35, 69] ++ (c :: ds) ++ [10] ++ body)
      = { st with mpiThreads := st.mpiThreads ++ [(some c, body)] } := by
  obtain ⟨h1, h2, h3, h4, h5, h6, h7⟩ := hst
  have hdig : ∀ x ∈ ds, 48 ≤ x ∧ x ≤ 57 := by
    intro x hx
    have h := hds
    simp [isDigits, List.all_eq_true] at h
    have := h.2 x hx
    omega
  have hgood : ∀ x ∈ c :: ds, x ≠ 10 ∧ x ≠ 255 ∧ x ≠ 0 ∧ x ≠ 17 := by
    intro x hx
    rcases List.mem_cons.mp hx with rfl | hx
    · rcases hc with rfl | rfl <;> exact ⟨by decide, by decide, by decide, by decide⟩
    · obtain ⟨ha, hb⟩ := hdig x hx
      exact ⟨by omega, by omega, by omega, by omega⟩
  have hne : body ≠ [] := by
    have : 0 < body.length := by omega
    exact List.ne_nil_of_length_pos this
  have e1 : processBytes fmt pt st [126, 36, 35, 69] = { st with inMPI := true } :=
    mpi_escape_entry fmt pt st h1 h2 h3 h4 hnl
  have e2 : processBytes fmt pt ({ st with inMPI := true }) (c :: ds)
      = { st with inMPI := true, mpiBuffer := c :: ds } := by
    rw [mpi_header_accum fmt pt (c :: ds) { st with inMPI := true } h1 h2 rfl h5 h6 hgood]
    rw [show ({ st with inMPI := true } : DecoderState).mpiBuffer = [] from h7]
    simp
  have e3 : processBytes fmt pt ({ st with inMPI := true, mpiBuffer := c :: ds }) [10]
      = { st with inMPI := true, mpiBuffer := [], mpiCommand := some c,
                  mpiLen := some (digitsToNat ds) } := by
    rw [processBytes_single]
    exact mpi_header_parse fmt pt { st with inMPI := true, mpiBuffer := c :: ds }
      c ds h1 h2 rfl h5 h6 rfl hc hds
  have e4 : processBytes fmt pt
      ({ st with inMPI := true, mpiBuffer := [], mpiCommand := some c,
                 mpiLen := some (digitsToNat ds) }) body
      = { st with inMPI := false, mpiBuffer := [], mpiCommand := none, mpiLen := none,
                  mpiThreads := st.mpiThreads ++ [(some c, body)] } := by
    have h := mpi_body_complete fmt pt (digitsToNat ds) body
      { st with inMPI := true, mpiBuffer := [], mpiCommand := some c,
                mpiLen := some (digitsToNat ds) }
      h1 h2 rfl rfl hbody (by simpa using hlen) hne
    simpa using h
  rw [processBytes_append, processBytes_append, processBytes_append, e1, e2, e3, e4]
  simp [h3, h5, h6, h7]

/-- Witness for C2 at a concrete frame `~$#E` + `E1` + LF + one body
byte, from a state whose client buffer ends in a newline. -/
theorem c2_witness :
    processBytes OutputFormat.normal pt0 { initState with clientBuffer := [10] }
      ([126, 36, 35, 69] ++ (69 :: [49]) ++ [10] ++ [97])
      = { initState with clientBuffer := [10], mpiThreads := [(some 69, [97])] } :=
  (c2_mpi_frame OutputFormat.normal pt0 { initState with clientBuffer := [10] }
    (by decide) (by decide) 69 (Or.inl rfl) [49] (by decide) [97] (by decide)
    (by decide) (by decide)).trans (by decide)

/-- Counterexample to C2 as stated: the frame `\n~$#EE0\n` declares
body length 0, so the worker's data should be empty — but the
completion test runs only after a byte is appended, so the worker is
spawned with the single following byte `Z` as its data. -/
theorem c2_counterexample :
    (processBytes OutputFormat.normal pt0 initState (s2b ("\n~$#EE0\nZ"))).mpiThreads
        ≠ [(some 69, [])]
    ∧ (processBytes OutputFormat.normal pt0 initState (s2b ("\n~$#EE0\nZ"))).mpiThreads
        = [(some 69, [90])] := by decide
